import Mathlib

/-!
# Multisig approval engine — shallow embedding

A shallow embedding of `src/security/multisig` (Rust, Solana program) and
proofs about its behaviour.

Modelling conventions:
* `Pubkey` (32-byte identity key) is a natural number; a well-formed key is
  `< 2^256`.  Machine integers are `Nat` with explicit `% 2^w` where the Rust
  code can wrap (`u8` casts, `u64` addition compiled without overflow checks).
* Each instruction processor from `instructions/processor.rs` becomes a pure
  function from the decoded account records it reads to the record(s) it
  writes, returning `Except ProgError _`.  The runtime-level account plumbing
  (`next_account_info`, `assert_owned_by`, rent, the system-program CPI that
  allocates fresh accounts) is outside the embedding; the `is_signer` flag of
  the signing account, which the processors test explicitly, is kept as a
  `Bool` argument.
* `process_approve_transaction` indexes `transaction.signers[owner_index]`
  with a Rust `Vec` index, which panics when out of bounds, so its result type
  (`ApplyResult`) has a third `panic` outcome next to success and error.
* `process_execute_transaction` dispatches the payload by CPI (`invoke`).  A
  CPI failure makes the whole instruction fail with no state committed, so the
  embedding returns the success-path record; the claims proved here concern
  the engine's own checks and state transitions, not the external callee.
-/

/-- Identity key (Solana `Pubkey`, a 32-byte value). -/
abbrev Pubkey := Nat

/-- The error enum from `src/security/multisig/src/errors/mod.rs`. -/
inductive MultisigError where
  | InvalidInstruction
  | NotRentExempt
  | AccountAlreadyInUse
  | UninitializedAccount
  | InvalidOwner
  | InvalidNumberOfSigners
  | NotEnoughSigners
  | AlreadyExecuted
  | DuplicateOwner
  | OwnerNotFound
  | OwnerAlreadySigned
  | TransactionIndexOutOfBounds
  | TransactionNotReady
  | AuthorityMismatch
  | InvalidTransactionData
  | NumericalOverflow
deriving DecidableEq, Repr

/-- The errors a processor can return: a program-specific `MultisigError`
(wrapped as `ProgramError::Custom`) or the runtime's missing-signature
error. -/
inductive ProgError where
  | Custom : MultisigError → ProgError
  | MissingRequiredSignature
deriving DecidableEq, Repr

/-- Status enum `TransactionStatus` from `src/security/multisig/src/state/mod.rs`. -/
inductive TransactionStatus where
  | Active
  | Executed
  | Removed
deriving DecidableEq, Repr

/-- Record `MultisigAccount` from `src/security/multisig/src/state/mod.rs`
(the spec's *Registry*).  `threshold` is a `u8`, `transaction_count` a
`u64`. -/
structure MultisigAccount where
  is_initialized : Bool
  threshold : Nat
  owners : List Pubkey
  transaction_count : Nat
deriving DecidableEq, Repr

/-- Record `Transaction` from `src/security/multisig/src/state/mod.rs`
(the spec's *Proposal*).  `executed_at` is a `u64`; `transaction_data` is a
byte vector. -/
structure Transaction where
  multisig : Pubkey
  status : TransactionStatus
  transaction_data : List Nat
  signers : List Bool
  creator : Pubkey
  executed_at : Nat
deriving DecidableEq, Repr

instance {ε α : Type} [DecidableEq ε] [DecidableEq α] : DecidableEq (Except ε α)
  | .error a, .error b => decidable_of_iff (a = b) (by simp)
  | .error _, .ok _ => isFalse (by simp)
  | .ok _, .error _ => isFalse (by simp)
  | .ok a, .ok b => decidable_of_iff (a = b) (by simp)

/-- Rust `Vec::dedup`: remove *consecutive* duplicate elements. -/
def dedupConsec : List Nat → List Nat
  | [] => []
  | [a] => [a]
  | a :: b :: t => if a = b then dedupConsec (b :: t) else a :: dedupConsec (b :: t)

/-- Rust `Vec::sort` (a stable comparison sort), modelled by insertion sort. -/
def sortKeys (l : List Pubkey) : List Pubkey :=
  List.insertionSort (· ≤ ·) l

/-- The duplicate check of `process_create_multisig` / `process_change_owners`:
clone, `sort`, `dedup`, then compare lengths. -/
def hasDuplicates (owners : List Pubkey) : Bool :=
  (dedupConsec (sortKeys owners)).length != owners.length

/-- Model of `process_create_multisig` (processor.rs): validates the threshold against
`owners.len() as u8` (note the `u8` truncation of the length), rejects
duplicate owners, and writes a fresh record.  `funderIsSigner` is the
`is_signer` flag of the funding account. -/
def process_create_multisig (funderIsSigner : Bool) (threshold : Nat)
    (owners : List Pubkey) : Except ProgError MultisigAccount :=
  if !funderIsSigner then .error .MissingRequiredSignature
  else if threshold = 0 ∨ threshold > owners.length % 256 then
    .error (.Custom .InvalidNumberOfSigners)
  else if hasDuplicates owners then .error (.Custom .DuplicateOwner)
  else .ok { is_initialized := true, threshold := threshold, owners := owners,
             transaction_count := 0 }

/-- Model of `process_create_transaction` (processor.rs): the creator must be a signer
and a current owner; the new transaction starts `Active` with one approval
slot per current owner, all false except the creator's slot; the multisig's
`transaction_count` is incremented (`u64`, wrapping add in release builds).
Returns the new transaction record and the updated multisig record. -/
def process_create_transaction (ownerIsSigner : Bool) (multisig : MultisigAccount)
    (multisigKey : Pubkey) (creator : Pubkey) (transaction_data : List Nat) :
    Except ProgError (Transaction × MultisigAccount) :=
  if !ownerIsSigner then .error .MissingRequiredSignature
  else if creator ∉ multisig.owners then .error (.Custom .OwnerNotFound)
  else
    let owner_index := multisig.owners.indexOf creator
    let approvers := (List.replicate multisig.owners.length false).set owner_index true
    let tx : Transaction :=
      { multisig := multisigKey, status := .Active,
        transaction_data := transaction_data, signers := approvers,
        creator := creator, executed_at := 0 }
    .ok (tx, { multisig with
               transaction_count := (multisig.transaction_count + 1) % 2 ^ 64 })

/-- Result of `process_approve_transaction`: success, a returned error, or a
Rust panic (out-of-bounds `Vec` index). -/
inductive ApplyResult (α : Type) where
  | ok : α → ApplyResult α
  | err : ProgError → ApplyResult α
  | panic : ApplyResult α
deriving DecidableEq, Repr

/-- Model of `process_approve_transaction` (processor.rs): checks, in order, the signer
flag, membership of the signer in the current owner set, that the transaction
belongs to this multisig, and that it is `Active`; then reads
`transaction.signers[owner_index]` — a panicking index when the current owner
set is longer than the approval vector — and either rejects a duplicate
approval or records the new one. -/
def process_approve_transaction (ownerIsSigner : Bool) (multisig : MultisigAccount)
    (multisigKey : Pubkey) (owner : Pubkey) (tx : Transaction) :
    ApplyResult Transaction :=
  if !ownerIsSigner then .err .MissingRequiredSignature
  else if owner ∉ multisig.owners then .err (.Custom .OwnerNotFound)
  else if tx.multisig ≠ multisigKey then .err (.Custom .InvalidTransactionData)
  else if tx.status ≠ .Active then .err (.Custom .TransactionNotReady)
  else
    let owner_index := multisig.owners.indexOf owner
    match tx.signers[owner_index]? with
    | none => .panic
    | some true => .err (.Custom .OwnerAlreadySigned)
    | some false => .ok { tx with signers := tx.signers.set owner_index true }

/-- Model of `process_execute_transaction` (processor.rs): checks the signer flag,
owner membership, transaction ownership and `Active` status; counts `true`
approval slots against the current `threshold`; requires at least 32 bytes of
payload (the dispatch target key); dispatches the rest by CPI; and marks the
transaction `Executed`, stamping `executed_at` with the clock (`now`). -/
def process_execute_transaction (ownerIsSigner : Bool) (multisig : MultisigAccount)
    (multisigKey : Pubkey) (owner : Pubkey) (tx : Transaction) (now : Nat) :
    Except ProgError Transaction :=
  if !ownerIsSigner then .error .MissingRequiredSignature
  else if owner ∉ multisig.owners then .error (.Custom .OwnerNotFound)
  else if tx.multisig ≠ multisigKey then .error (.Custom .InvalidTransactionData)
  else if tx.status ≠ .Active then .error (.Custom .TransactionNotReady)
  else if tx.signers.countP (fun approved => approved) < multisig.threshold then
    .error (.Custom .NotEnoughSigners)
  else if tx.transaction_data.length < 32 then .error (.Custom .InvalidTransactionData)
  else .ok { tx with status := .Executed, executed_at := now }

/-- Model of `process_remove_transaction` (processor.rs): checks the signer flag, owner
membership and transaction ownership; then rejects with `AuthorityMismatch`
only when the requester is not the creator *and* the status is not `Executed`;
otherwise marks the transaction `Removed`. -/
def process_remove_transaction (ownerIsSigner : Bool) (multisig : MultisigAccount)
    (multisigKey : Pubkey) (owner : Pubkey) (tx : Transaction) :
    Except ProgError Transaction :=
  if !ownerIsSigner then .error .MissingRequiredSignature
  else if owner ∉ multisig.owners then .error (.Custom .OwnerNotFound)
  else if tx.multisig ≠ multisigKey then .error (.Custom .InvalidTransactionData)
  else if tx.creator ≠ owner ∧ tx.status ≠ .Executed then
    .error (.Custom .AuthorityMismatch)
  else .ok { tx with status := .Removed }

/-- Model of `process_change_owners` (processor.rs): takes no signer account at all; it
checks only that the supplied transaction belongs to this multisig and is
`Executed`, re-validates the new threshold (against `owners.len() as u8`) and
owner uniqueness, and overwrites the multisig's `threshold` and `owners`.
The transaction's payload is never inspected. -/
def process_change_owners (multisig : MultisigAccount) (multisigKey : Pubkey)
    (tx : Transaction) (threshold : Nat) (owners : List Pubkey) :
    Except ProgError MultisigAccount :=
  if tx.multisig ≠ multisigKey then .error (.Custom .InvalidTransactionData)
  else if tx.status ≠ .Executed then .error (.Custom .TransactionNotReady)
  else if threshold = 0 ∨ threshold > owners.length % 256 then
    .error (.Custom .InvalidNumberOfSigners)
  else if hasDuplicates owners then .error (.Custom .DuplicateOwner)
  else .ok { multisig with threshold := threshold, owners := owners }

/-! ## Borsh record encoding

`MultisigAccount` and `Transaction` derive `BorshSerialize`/`BorshDeserialize`
(`state/mod.rs`).  Borsh writes fields in declaration order: `bool` and `u8`
as one byte, `u32`/`u64` little-endian, a `Pubkey` as its 32 bytes (modelled
as the 32 little-endian bytes of the key's numeric value), a fieldless enum
as its variant index (one byte), and `Vec<T>` as a `u32` length followed by
the elements.  Bytes are `Nat` values `< 256`. -/

/-- The `k` little-endian bytes of `n` (Borsh fixed-width integer encoding). -/
def natToLEBytes : Nat → Nat → List Nat
  | 0, _ => []
  | k + 1, n => n % 256 :: natToLEBytes k (n / 256)

/-- Borsh encoding of a `bool`. -/
def serBool (b : Bool) : List Nat :=
  [if b then 1 else 0]

/-- Borsh encoding of `TransactionStatus` (variant index). -/
def serStatus : TransactionStatus → List Nat
  | .Active => [0]
  | .Executed => [1]
  | .Removed => [2]

/-- Borsh encoding of a `MultisigAccount` record. -/
def serialize_multisig (m : MultisigAccount) : List Nat :=
  serBool m.is_initialized ++ natToLEBytes 1 m.threshold ++
  natToLEBytes 4 m.owners.length ++ (m.owners.map (natToLEBytes 32)).flatten ++
  natToLEBytes 8 m.transaction_count

/-- Borsh encoding of a `Transaction` record. -/
def serialize_transaction (t : Transaction) : List Nat :=
  natToLEBytes 32 t.multisig ++ serStatus t.status ++
  natToLEBytes 4 t.transaction_data.length ++ t.transaction_data ++
  natToLEBytes 4 t.signers.length ++ (t.signers.map serBool).flatten ++
  natToLEBytes 32 t.creator ++ natToLEBytes 8 t.executed_at

/-- Read a `k`-byte little-endian integer; fails on truncated input. -/
def readLE : Nat → List Nat → Option (Nat × List Nat)
  | 0, bs => some (0, bs)
  | _ + 1, [] => none
  | k + 1, b :: bs =>
    match readLE k bs with
    | some (n, rest) => some (b + 256 * n, rest)
    | none => none

/-- Read a Borsh `bool` (only `0`/`1` are valid). -/
def readBool : List Nat → Option (Bool × List Nat)
  | 0 :: bs => some (false, bs)
  | 1 :: bs => some (true, bs)
  | _ => none

/-- Read a Borsh `TransactionStatus` tag. -/
def readStatus : List Nat → Option (TransactionStatus × List Nat)
  | 0 :: bs => some (.Active, bs)
  | 1 :: bs => some (.Executed, bs)
  | 2 :: bs => some (.Removed, bs)
  | _ => none

/-- Read `k` identity keys of 32 bytes each. -/
def readKeys : Nat → List Nat → Option (List Pubkey × List Nat)
  | 0, bs => some ([], bs)
  | k + 1, bs => do
    let (p, rest) ← readLE 32 bs
    let (ps, rest2) ← readKeys k rest
    some (p :: ps, rest2)

/-- Read `k` Borsh `bool`s. -/
def readBools : Nat → List Nat → Option (List Bool × List Nat)
  | 0, bs => some ([], bs)
  | k + 1, bs => do
    let (b, rest) ← readBool bs
    let (xs, rest2) ← readBools k rest
    some (b :: xs, rest2)

/-- Read `k` raw payload bytes. -/
def readRaw : Nat → List Nat → Option (List Nat × List Nat)
  | 0, bs => some ([], bs)
  | _ + 1, [] => none
  | k + 1, b :: bs => do
    let (xs, rest) ← readRaw k bs
    some (b :: xs, rest)

/-- Borsh decoding of a `MultisigAccount` record. -/
def deserialize_multisig (bs : List Nat) : Option (MultisigAccount × List Nat) := do
  let (ini, bs1) ← readBool bs
  let (thr, bs2) ← readLE 1 bs1
  let (len, bs3) ← readLE 4 bs2
  let (ow, bs4) ← readKeys len bs3
  let (cnt, bs5) ← readLE 8 bs4
  some ({ is_initialized := ini, threshold := thr, owners := ow,
          transaction_count := cnt }, bs5)

/-- Borsh decoding of a `Transaction` record. -/
def deserialize_transaction (bs : List Nat) : Option (Transaction × List Nat) := do
  let (ms, bs1) ← readLE 32 bs
  let (st, bs2) ← readStatus bs1
  let (dlen, bs3) ← readLE 4 bs2
  let (dat, bs4) ← readRaw dlen bs3
  let (slen, bs5) ← readLE 4 bs4
  let (sg, bs6) ← readBools slen bs5
  let (cr, bs7) ← readLE 32 bs6
  let (ea, bs8) ← readLE 8 bs7
  some ({ multisig := ms, status := st, transaction_data := dat,
          signers := sg, creator := cr, executed_at := ea }, bs8)

/-- Well-formedness of a `MultisigAccount` value in its Rust record type: `u8`
threshold, `u32` vector length, 32-byte keys, `u64` counter. -/
def MultisigWF (m : MultisigAccount) : Prop :=
  m.threshold < 2 ^ 8 ∧ m.owners.length < 2 ^ 32 ∧ (∀ p ∈ m.owners, p < 2 ^ 256) ∧
  m.transaction_count < 2 ^ 64

/-- Well-formedness of a `Transaction` value in its Rust record type. -/
def TransactionWF (t : Transaction) : Prop :=
  t.multisig < 2 ^ 256 ∧ t.transaction_data.length < 2 ^ 32 ∧
  (∀ b ∈ t.transaction_data, b < 256) ∧ t.signers.length < 2 ^ 32 ∧
  t.creator < 2 ^ 256 ∧ t.executed_at < 2 ^ 64

/-- The spec's Registry invariant: unique owners and a threshold within
bounds of the current owner list. -/
def RegistryInv (m : MultisigAccount) : Prop :=
  m.owners.Nodup ∧ 1 ≤ m.threshold ∧ m.threshold ≤ m.owners.length

/-! ## Helper lemmas: the sort/dedup duplicate check -/

theorem dedupConsec_length_le : ∀ l : List Nat, (dedupConsec l).length ≤ l.length
  | [] => Nat.le_refl _
  | [_] => Nat.le_refl _
  | a :: b :: t => by
    by_cases hab : a = b <;>
      simp only [dedupConsec, hab, if_true, if_false, List.length_cons] <;>
      have := dedupConsec_length_le (b :: t) <;>
      simp only [List.length_cons] at * <;> omega

theorem dedupConsec_of_nodup : ∀ l : List Nat, l.Nodup → dedupConsec l = l
  | [], _ => rfl
  | [_], _ => rfl
  | a :: b :: t, h => by
    have hab : a ≠ b := by
      intro e
      exact (List.nodup_cons.mp h).1 (e ▸ List.mem_cons_self b t)
    simp only [dedupConsec, hab, if_false, ite_false]
    rw [dedupConsec_of_nodup (b :: t) (List.nodup_cons.mp h).2]

theorem sorted_nodup_or_length_lt : ∀ l : List Nat, l.Sorted (· ≤ ·) →
    l.Nodup ∨ (dedupConsec l).length < l.length
  | [], _ => .inl List.nodup_nil
  | [a], _ => .inl (List.nodup_singleton a)
  | a :: b :: t, h => by
    have hab' : a ≤ b := (List.sorted_cons.mp h).1 b (List.mem_cons_self b t)
    have hs : (b :: t).Sorted (· ≤ ·) := (List.sorted_cons.mp h).2
    by_cases hab : a = b
    · right
      have := dedupConsec_length_le (b :: t)
      simp only [dedupConsec, hab, if_true, ite_true, List.length_cons] at *
      omega
    · rcases sorted_nodup_or_length_lt (b :: t) hs with hn | hlt
      · left
        refine List.nodup_cons.mpr ⟨?_, hn⟩
        intro hmem
        rcases List.mem_cons.mp hmem with he | ht
        · exact hab he
        · have hba : b ≤ a := (List.sorted_cons.mp hs).1 a ht
          exact hab (Nat.le_antisymm hab' hba)
      · right
        simp only [dedupConsec, hab, if_false, ite_false, List.length_cons] at *
        omega

theorem sortKeys_sorted (l : List Pubkey) : (sortKeys l).Sorted (· ≤ ·) :=
  List.sorted_insertionSort (· ≤ ·) l

theorem sortKeys_perm (l : List Pubkey) : (sortKeys l).Perm l :=
  List.perm_insertionSort (· ≤ ·) l

theorem hasDuplicates_eq_false_iff (l : List Pubkey) :
    hasDuplicates l = false ↔ l.Nodup := by
  unfold hasDuplicates
  rw [bne_eq_false_iff_eq]
  constructor
  · intro h
    rcases sorted_nodup_or_length_lt _ (sortKeys_sorted l) with hn | hlt
    · exact (sortKeys_perm l).nodup_iff.mp hn
    · have hp := (sortKeys_perm l).length_eq
      omega
  · intro h
    have hn : (sortKeys l).Nodup := (sortKeys_perm l).nodup_iff.mpr h
    rw [dedupConsec_of_nodup _ hn, (sortKeys_perm l).length_eq]

/-! ## Helper lemmas: Borsh round-trip -/

theorem readLE_append (k : Nat) : ∀ (n : Nat) (r : List Nat), n < 256 ^ k →
    readLE k (natToLEBytes k n ++ r) = some (n, r) := by
  induction k with
  | zero =>
    intro n r h
    have hn : n = 0 := Nat.lt_one_iff.mp (by simpa using h)
    simp [natToLEBytes, readLE, hn]
  | succ k ih =>
    intro n r h
    have hdiv : n / 256 < 256 ^ k := by
      rw [Nat.div_lt_iff_lt_mul (by norm_num : 0 < 256)]
      calc n < 256 ^ (k + 1) := h
        _ = 256 ^ k * 256 := by rw [pow_succ]
    simp only [natToLEBytes, List.cons_append, readLE, List.append_eq]
    rw [ih (n / 256) r hdiv]
    simp [Nat.mod_add_div]

theorem readBool_append (b : Bool) (r : List Nat) :
    readBool (serBool b ++ r) = some (b, r) := by
  cases b <;> rfl

theorem readStatus_append (s : TransactionStatus) (r : List Nat) :
    readStatus (serStatus s ++ r) = some (s, r) := by
  cases s <;> rfl

theorem readKeys_append : ∀ (l : List Pubkey) (r : List Nat),
    (∀ p ∈ l, p < 256 ^ 32) →
    readKeys l.length ((l.map (natToLEBytes 32)).flatten ++ r) = some (l, r)
  | [], r, _ => rfl
  | p :: t, r, h => by
    have hp : p < 256 ^ 32 := h p (List.mem_cons_self p t)
    have ht : ∀ q ∈ t, q < 256 ^ 32 := fun q hq => h q (List.mem_cons_of_mem p hq)
    simp only [List.length_cons, List.map_cons, List.flatten_cons, List.append_assoc,
      readKeys]
    rw [readLE_append 32 p _ hp]
    simp only [Option.bind_eq_bind, Option.some_bind]
    rw [readKeys_append t r ht]
    simp only [Option.some_bind]

theorem readBools_append : ∀ (l : List Bool) (r : List Nat),
    readBools l.length ((l.map serBool).flatten ++ r) = some (l, r)
  | [], _ => rfl
  | b :: t, r => by
    simp only [List.length_cons, List.map_cons, List.flatten_cons, List.append_assoc,
      readBools]
    rw [readBool_append b]
    simp only [Option.bind_eq_bind, Option.some_bind]
    rw [readBools_append t r]
    simp only [Option.some_bind]

theorem readRaw_append : ∀ (l : List Nat) (r : List Nat),
    readRaw l.length (l ++ r) = some (l, r)
  | [], _ => rfl
  | b :: t, r => by
    simp only [List.length_cons, List.cons_append, readRaw, List.append_eq]
    rw [readRaw_append t r]
    simp only [Option.bind_eq_bind, Option.some_bind]

theorem deserialize_serialize_multisig (m : MultisigAccount) (h : MultisigWF m) :
    deserialize_multisig (serialize_multisig m) = some (m, []) := by
  obtain ⟨h1, h2, h3, h4⟩ := h
  have e : (256 : Nat) ^ 32 = 2 ^ 256 := by norm_num
  have hks : ∀ p ∈ m.owners, p < 256 ^ 32 := fun p hp => e ▸ h3 p hp
  unfold deserialize_multisig serialize_multisig
  repeat rw [List.append_assoc]
  rw [readBool_append]
  simp only [Option.bind_eq_bind, Option.some_bind]
  rw [readLE_append 1 m.threshold _ (by norm_num at h1 ⊢; omega)]
  simp only [Option.some_bind]
  rw [readLE_append 4 m.owners.length _ (by norm_num at h2 ⊢; omega)]
  simp only [Option.some_bind]
  rw [readKeys_append m.owners _ hks]
  simp only [Option.some_bind]
  rw [← List.append_nil (natToLEBytes 8 m.transaction_count)]
  rw [readLE_append 8 m.transaction_count [] (by norm_num at h4 ⊢; omega)]
  simp only [Option.some_bind]

theorem deserialize_serialize_transaction (t : Transaction) (h : TransactionWF t) :
    deserialize_transaction (serialize_transaction t) = some (t, []) := by
  obtain ⟨h1, h2, h3, h4, h5, h6⟩ := h
  have e : (256 : Nat) ^ 32 = 2 ^ 256 := by norm_num
  unfold deserialize_transaction serialize_transaction
  repeat rw [List.append_assoc]
  rw [readLE_append 32 t.multisig _ (e ▸ h1)]
  simp only [Option.bind_eq_bind, Option.some_bind]
  rw [readStatus_append]
  simp only [Option.some_bind]
  rw [readLE_append 4 t.transaction_data.length _ (by norm_num at h2 ⊢; omega)]
  simp only [Option.some_bind]
  rw [readRaw_append]
  simp only [Option.some_bind]
  rw [readLE_append 4 t.signers.length _ (by norm_num at h4 ⊢; omega)]
  simp only [Option.some_bind]
  rw [readBools_append]
  simp only [Option.some_bind]
  rw [readLE_append 32 t.creator _ (e ▸ h5)]
  simp only [Option.some_bind]
  rw [← List.append_nil (natToLEBytes 8 t.executed_at)]
  rw [readLE_append 8 t.executed_at [] (by norm_num at h6 ⊢; omega)]
  simp only [Option.some_bind]

/-! ## Claim theorems -/

/-- C5: approve by a non-owner fails with `OwnerNotFound` (the spec's
`SignerNotOwner`) regardless of the proposal's status. -/
theorem approve_nonowner_fails (multisig : MultisigAccount) (multisigKey owner : Pubkey)
    (tx : Transaction) (h : owner ∉ multisig.owners) :
    process_approve_transaction true multisig multisigKey owner tx =
      .err (.Custom .OwnerNotFound) := by
  simp [process_approve_transaction, h]

theorem approve_nonowner_fails_witness :
    (7 : Pubkey) ∉ (⟨true, 1, [1, 2], 0⟩ : MultisigAccount).owners ∧
    process_approve_transaction true (⟨true, 1, [1, 2], 0⟩ : MultisigAccount) 100 7
      (⟨100, .Executed, [], [true, false], 1, 9⟩ : Transaction) =
      .err (.Custom .OwnerNotFound) :=
  ⟨by decide, approve_nonowner_fails _ _ _ _ (by decide)⟩

/-- C6: a second approval by the same owner fails. -/
theorem approve_duplicate_fails (multisig : MultisigAccount) (multisigKey owner : Pubkey)
    (tx : Transaction) (hown : owner ∈ multisig.owners) (hkey : tx.multisig = multisigKey)
    (hact : tx.status = .Active)
    (happ : tx.signers[multisig.owners.indexOf owner]? = some true) :
    process_approve_transaction true multisig multisigKey owner tx =
      .err (.Custom .OwnerAlreadySigned) := by
  simp [process_approve_transaction, hown, hkey, hact, happ]

theorem approve_duplicate_fails_witness :
    process_approve_transaction true (⟨true, 2, [1, 2], 1⟩ : MultisigAccount) 100 2
      (⟨100, .Active, [], [false, true], 2, 0⟩ : Transaction) =
      .err (.Custom .OwnerAlreadySigned) :=
  approve_duplicate_fails _ _ _ _ (by decide) (by decide) (by decide) (by decide)

/-- C1 (failing input): the function `process_change_owners` never reads the referenced
transaction's payload, so two different governance arguments both succeed
against the *same* executed transaction (whose payload is a 32-byte
external-dispatch blob of zeros); no signer is involved at all. -/
theorem changeOwners_ignores_payload :
    process_change_owners (⟨true, 2, [1, 2], 1⟩ : MultisigAccount) 100
      (⟨100, .Executed, List.replicate 32 0, [true, true], 1, 7⟩ : Transaction) 1 [5] =
      .ok (⟨true, 1, [5], 1⟩ : MultisigAccount) ∧
    process_change_owners (⟨true, 2, [1, 2], 1⟩ : MultisigAccount) 100
      (⟨100, .Executed, List.replicate 32 0, [true, true], 1, 7⟩ : Transaction) 2 [6, 7] =
      .ok (⟨true, 2, [6, 7], 1⟩ : MultisigAccount) := by
  decide

/-- C3 (failing input): removal of an Executed transaction by an owner who
is not its creator succeeds, contradicting the documented contract. -/
theorem remove_executed_noncreator_succeeds :
    process_remove_transaction true (⟨true, 2, [1, 2], 1⟩ : MultisigAccount) 100 2
      (⟨100, .Executed, List.replicate 32 0, [true, true], 1, 7⟩ : Transaction) =
      .ok (⟨100, .Removed, List.replicate 32 0, [true, true], 1, 7⟩ : Transaction) := by
  decide

/-- C10: a reachable state in which approve panics. -/
theorem approve_out_of_bounds_panic :
    process_create_multisig true 1 [0] = .ok (⟨true, 1, [0], 0⟩ : MultisigAccount) ∧
    process_create_transaction true (⟨true, 1, [0], 0⟩ : MultisigAccount) 100 0
        (List.replicate 32 0) =
      .ok ((⟨100, .Active, List.replicate 32 0, [true], 0, 0⟩ : Transaction),
           (⟨true, 1, [0], 1⟩ : MultisigAccount)) ∧
    process_create_transaction true (⟨true, 1, [0], 1⟩ : MultisigAccount) 100 0
        (List.replicate 33 7) =
      .ok ((⟨100, .Active, List.replicate 33 7, [true], 0, 0⟩ : Transaction),
           (⟨true, 1, [0], 2⟩ : MultisigAccount)) ∧
    process_execute_transaction true (⟨true, 1, [0], 2⟩ : MultisigAccount) 100 0
        (⟨100, .Active, List.replicate 32 0, [true], 0, 0⟩ : Transaction) 5 =
      .ok (⟨100, .Executed, List.replicate 32 0, [true], 0, 5⟩ : Transaction) ∧
    process_change_owners (⟨true, 1, [0], 2⟩ : MultisigAccount) 100
        (⟨100, .Executed, List.replicate 32 0, [true], 0, 5⟩ : Transaction) 1 [0, 1] =
      .ok (⟨true, 1, [0, 1], 2⟩ : MultisigAccount) ∧
    process_approve_transaction true (⟨true, 1, [0, 1], 2⟩ : MultisigAccount) 100 1
        (⟨100, .Active, List.replicate 33 7, [true], 0, 0⟩ : Transaction) =
      .panic := by
  decide

set_option maxRecDepth 4096 in
/-- C4 counterexample: 256 distinct owners and threshold 1 satisfy
`1 ≤ threshold ≤ len(owners)` with no duplicates, yet creation fails, because
the code compares the threshold against `owners.len() as u8 = 0`. -/
theorem createMultisig_256_owners_counterexample :
    (1 : Nat) ≤ 1 ∧ 1 ≤ (List.range 256).length ∧ (List.range 256).Nodup ∧
    process_create_multisig true 1 (List.range 256) =
      .error (.Custom .InvalidNumberOfSigners) :=
  ⟨Nat.le_refl 1, by simp, List.nodup_range 256, by decide⟩

/-- C4 (amended): createRegistry succeeds for `1 ≤ threshold ≤ len(owners)`
with no duplicates provided `len(owners) ≤ 255`; fails with
`InvalidNumberOfSigners` (the spec's `InvalidThreshold`) when `threshold == 0`
or (as a `u8`) `threshold > len(owners)`, and with `DuplicateOwner` on
repeats once the threshold check passes. -/
theorem createMultisig_spec (threshold : Nat) (owners : List Pubkey) :
    (threshold ≠ 0 → threshold ≤ owners.length → owners.length ≤ 255 → owners.Nodup →
      process_create_multisig true threshold owners =
        .ok { is_initialized := true, threshold := threshold, owners := owners,
              transaction_count := 0 }) ∧
    (threshold = 0 →
      process_create_multisig true threshold owners =
        .error (.Custom .InvalidNumberOfSigners)) ∧
    (threshold < 256 → owners.length < threshold →
      process_create_multisig true threshold owners =
        .error (.Custom .InvalidNumberOfSigners)) ∧
    (threshold ≠ 0 → threshold ≤ owners.length % 256 → ¬owners.Nodup →
      process_create_multisig true threshold owners =
        .error (.Custom .DuplicateOwner)) := by
  refine ⟨?_, ?_, ?_, ?_⟩
  · intro h0 hle h255 hnd
    have hmod : owners.length % 256 = owners.length := Nat.mod_eq_of_lt (by omega)
    have hdup : hasDuplicates owners = false := (hasDuplicates_eq_false_iff owners).mpr hnd
    simp [process_create_multisig, hmod, hdup, h0, Nat.not_lt.mpr hle]
  · intro h0
    simp [process_create_multisig, h0]
  · intro hlt hgt
    have hmod : owners.length % 256 = owners.length := Nat.mod_eq_of_lt (by omega)
    simp [process_create_multisig, hmod]
    omega
  · intro h0 hle hnd
    have hdup : hasDuplicates owners = true := by
      rcases Bool.eq_false_or_eq_true (hasDuplicates owners) with ht | hf
      · exact ht
      · exact absurd ((hasDuplicates_eq_false_iff owners).mp hf) hnd
    simp [process_create_multisig, hdup, h0, Nat.not_lt.mpr hle]

theorem createMultisig_spec_witness :
    process_create_multisig true 2 [10, 20, 30] =
      .ok { is_initialized := true, threshold := 2, owners := [10, 20, 30],
            transaction_count := 0 } ∧
    process_create_multisig true 0 [10, 20, 30] =
      .error (.Custom .InvalidNumberOfSigners) ∧
    process_create_multisig true 4 [10, 20, 30] =
      .error (.Custom .InvalidNumberOfSigners) ∧
    process_create_multisig true 1 [10, 10] =
      .error (.Custom .DuplicateOwner) :=
  ⟨(createMultisig_spec 2 [10, 20, 30]).1 (by decide) (by decide) (by decide) (by decide),
   (createMultisig_spec 0 [10, 20, 30]).2.1 rfl,
   (createMultisig_spec 4 [10, 20, 30]).2.2.1 (by decide) (by decide),
   (createMultisig_spec 1 [10, 10]).2.2.2 (by decide) (by decide) (by decide)⟩

/-- C2 counterexample: an Active proposal with quorum met (threshold 1, one
true slot) but an empty payload: execute returns `InvalidTransactionData`, not
success, so quorum alone does not guarantee success. -/
theorem execute_short_payload_counterexample :
    (⟨true, 1, [0], 1⟩ : MultisigAccount).threshold ≤
      ([true] : List Bool).countP (fun approved => approved) ∧
    process_execute_transaction true (⟨true, 1, [0], 1⟩ : MultisigAccount) 100 0
      (⟨100, .Active, [], [true], 0, 0⟩ : Transaction) 5 =
      .error (.Custom .InvalidTransactionData) := by
  decide

/-- C2 (amended): on an `Active` proposal, execute fails with
`NotEnoughSigners` (the spec's `QuorumNotMet`) while the count of true
approval slots is below the current threshold; once quorum is met it succeeds
*provided the payload carries at least the 32-byte dispatch target*, setting
`Executed` and stamping `executed_at`; any second execute on the executed
record fails with `TransactionNotReady` (the spec's `NotActive`). -/
theorem execute_quorum_spec (multisig : MultisigAccount) (multisigKey owner : Pubkey)
    (tx : Transaction) (now : Nat) (hown : owner ∈ multisig.owners)
    (hkey : tx.multisig = multisigKey) (hact : tx.status = .Active) :
    (tx.signers.countP (fun approved => approved) < multisig.threshold →
      process_execute_transaction true multisig multisigKey owner tx now =
        .error (.Custom .NotEnoughSigners)) ∧
    (multisig.threshold ≤ tx.signers.countP (fun approved => approved) →
      32 ≤ tx.transaction_data.length →
      process_execute_transaction true multisig multisigKey owner tx now =
        .ok { tx with status := .Executed, executed_at := now } ∧
      (∀ (owner2 : Pubkey) (now2 : Nat), owner2 ∈ multisig.owners →
        process_execute_transaction true multisig multisigKey owner2
          { tx with status := .Executed, executed_at := now } now2 =
          .error (.Custom .TransactionNotReady))) := by
  constructor
  · intro hq
    simp [process_execute_transaction, hown, hkey, hact, hq]
  · intro hq hlen
    constructor
    · simp [process_execute_transaction, hown, hkey, hact, Nat.not_lt.mpr hq,
        Nat.not_lt.mpr hlen]
    · intro owner2 now2 hown2
      simp [process_execute_transaction, hown2, hkey]

theorem execute_quorum_spec_witness :
    process_execute_transaction true (⟨true, 2, [0, 1], 1⟩ : MultisigAccount) 100 0
      (⟨100, .Active, List.replicate 32 0, [true, false], 0, 0⟩ : Transaction) 5 =
      .error (.Custom .NotEnoughSigners) ∧
    process_execute_transaction true (⟨true, 1, [0, 1], 1⟩ : MultisigAccount) 100 0
      (⟨100, .Active, List.replicate 32 0, [true, false], 0, 0⟩ : Transaction) 5 =
      .ok (⟨100, .Executed, List.replicate 32 0, [true, false], 0, 5⟩ : Transaction) ∧
    process_execute_transaction true (⟨true, 1, [0, 1], 1⟩ : MultisigAccount) 100 1
      (⟨100, .Executed, List.replicate 32 0, [true, false], 0, 5⟩ : Transaction) 6 =
      .error (.Custom .TransactionNotReady) :=
  ⟨(execute_quorum_spec (⟨true, 2, [0, 1], 1⟩ : MultisigAccount) 100 0
      (⟨100, .Active, List.replicate 32 0, [true, false], 0, 0⟩ : Transaction) 5
      (by decide) (by decide) (by decide)).1 (by decide),
   ((execute_quorum_spec (⟨true, 1, [0, 1], 1⟩ : MultisigAccount) 100 0
      (⟨100, .Active, List.replicate 32 0, [true, false], 0, 0⟩ : Transaction) 5
      (by decide) (by decide) (by decide)).2 (by decide) (by decide)).1,
   ((execute_quorum_spec (⟨true, 1, [0, 1], 1⟩ : MultisigAccount) 100 0
      (⟨100, .Active, List.replicate 32 0, [true, false], 0, 0⟩ : Transaction) 5
      (by decide) (by decide) (by decide)).2 (by decide) (by decide)).2 1 6 (by decide)⟩

/-- C7: createProposal rejects non-owners with `OwnerNotFound` (the spec's
`SignerNotOwner`); on success the new proposal is `Active` with
`executed_at = 0`, carries one approval slot per current owner — all false
except the creator's slot — and the registry's counter grows by one. -/
theorem createProposal_spec (multisig : MultisigAccount) (multisigKey creator : Pubkey)
    (transaction_data : List Nat) :
    (creator ∉ multisig.owners →
      process_create_transaction true multisig multisigKey creator transaction_data =
        .error (.Custom .OwnerNotFound)) ∧
    (creator ∈ multisig.owners → multisig.transaction_count + 1 < 2 ^ 64 →
      ∃ tx m2,
        process_create_transaction true multisig multisigKey creator transaction_data =
          .ok (tx, m2) ∧
        tx.multisig = multisigKey ∧ tx.creator = creator ∧
        tx.transaction_data = transaction_data ∧
        tx.status = .Active ∧ tx.executed_at = 0 ∧
        tx.signers.length = multisig.owners.length ∧
        (∀ j, j < multisig.owners.length →
          (tx.signers[j]? = some true ↔ j = multisig.owners.indexOf creator)) ∧
        m2.owners = multisig.owners ∧ m2.threshold = multisig.threshold ∧
        m2.transaction_count = multisig.transaction_count + 1) := by
  constructor
  · intro hmem
    simp [process_create_transaction, hmem]
  · intro hmem hlt
    have hidx : multisig.owners.indexOf creator < multisig.owners.length :=
      List.indexOf_lt_length.mpr hmem
    refine ⟨⟨multisigKey, .Active, transaction_data,
      (List.replicate multisig.owners.length false).set
        (multisig.owners.indexOf creator) true, creator, 0⟩,
      { multisig with transaction_count := (multisig.transaction_count + 1) % 2 ^ 64 },
      ?_, rfl, rfl, rfl, rfl, rfl, ?_, ?_, rfl, rfl, ?_⟩
    · simp [process_create_transaction, hmem]
    · simp
    · intro j hj
      by_cases hje : j = multisig.owners.indexOf creator
      · subst hje
        rw [List.getElem?_set_self (by simpa using hidx)]
        simp
      · rw [List.getElem?_set_ne (fun e => hje e.symm)]
        simp [List.getElem?_replicate, hj, hje]
    · simpa using Nat.mod_eq_of_lt hlt

theorem createProposal_spec_witness :
    process_create_transaction true (⟨true, 2, [1, 2], 0⟩ : MultisigAccount) 100 7 [] =
      .error (.Custom .OwnerNotFound) ∧
    (∃ tx m2,
      process_create_transaction true (⟨true, 2, [1, 2], 0⟩ : MultisigAccount) 100 2 [3] =
        .ok (tx, m2) ∧
      tx.multisig = 100 ∧ tx.creator = 2 ∧ tx.transaction_data = [3] ∧
      tx.status = .Active ∧ tx.executed_at = 0 ∧
      tx.signers.length = (⟨true, 2, [1, 2], 0⟩ : MultisigAccount).owners.length ∧
      (∀ j, j < (⟨true, 2, [1, 2], 0⟩ : MultisigAccount).owners.length →
        (tx.signers[j]? = some true ↔
          j = (⟨true, 2, [1, 2], 0⟩ : MultisigAccount).owners.indexOf 2)) ∧
      m2.owners = (⟨true, 2, [1, 2], 0⟩ : MultisigAccount).owners ∧
      m2.threshold = 2 ∧ m2.transaction_count = 1) :=
  ⟨(createProposal_spec ⟨true, 2, [1, 2], 0⟩ 100 7 []).1 (by decide),
   (createProposal_spec ⟨true, 2, [1, 2], 0⟩ 100 2 [3]).2 (by decide) (by norm_num)⟩

/-- C8: every operation that writes the registry record preserves the
Registry invariant.  `process_create_multisig` and `process_change_owners`
(re-)validate it; `process_create_transaction` only bumps the counter; the
remaining operations (`approve`/`execute`/`remove`) never write the registry
record at all, as their result types show. -/
theorem registry_invariant_preserved :
    (∀ (s : Bool) (t : Nat) (ow : List Pubkey) (m : MultisigAccount),
      process_create_multisig s t ow = .ok m → RegistryInv m) ∧
    (∀ (m : MultisigAccount) (key : Pubkey) (tx : Transaction) (t : Nat)
      (ow : List Pubkey) (m2 : MultisigAccount),
      process_change_owners m key tx t ow = .ok m2 → RegistryInv m2) ∧
    (∀ (s : Bool) (m : MultisigAccount) (key creator : Pubkey) (dat : List Nat)
      (tx : Transaction) (m2 : MultisigAccount),
      process_create_transaction s m key creator dat = .ok (tx, m2) →
      RegistryInv m → RegistryInv m2) := by
  refine ⟨?_, ?_, ?_⟩
  · intro s t ow m h
    unfold process_create_multisig at h
    split_ifs at h with h1 h2 h3
    simp only [Except.ok.injEq] at h
    subst h
    push_neg at h2
    refine ⟨(hasDuplicates_eq_false_iff ow).mp (by simpa using h3), ?_, ?_⟩
    · exact Nat.one_le_iff_ne_zero.mpr h2.1
    · exact Nat.le_trans h2.2 (Nat.mod_le _ _)
  · intro m key tx t ow m2 h
    unfold process_change_owners at h
    split_ifs at h with h1 h2 h3 h4
    simp only [Except.ok.injEq] at h
    subst h
    push_neg at h3
    refine ⟨(hasDuplicates_eq_false_iff ow).mp (by simpa using h4), ?_, ?_⟩
    · exact Nat.one_le_iff_ne_zero.mpr h3.1
    · exact Nat.le_trans h3.2 (Nat.mod_le _ _)
  · intro s m key creator dat tx m2 h hm
    unfold process_create_transaction at h
    split_ifs at h with h1 h2
    simp only [Except.ok.injEq, Prod.mk.injEq] at h
    obtain ⟨-, h⟩ := h
    subst h
    exact hm

theorem registry_invariant_preserved_witness :
    RegistryInv (⟨true, 2, [10, 20, 30], 0⟩ : MultisigAccount) ∧
    RegistryInv (⟨true, 1, [5], 1⟩ : MultisigAccount) ∧
    RegistryInv (⟨true, 1, [0], 1⟩ : MultisigAccount) :=
  ⟨registry_invariant_preserved.1 true 2 [10, 20, 30] _ (by decide),
   registry_invariant_preserved.2.1 ⟨true, 2, [1, 2], 1⟩ 100
     ⟨100, .Executed, List.replicate 32 0, [true, true], 1, 7⟩ 1 [5] _ (by decide),
   registry_invariant_preserved.2.2 true ⟨true, 1, [0], 0⟩ 100 0 (List.replicate 32 0)
     ⟨100, .Active, List.replicate 32 0, [true], 0, 0⟩ ⟨true, 1, [0], 1⟩ (by decide)
     ⟨by decide, by decide, by decide⟩⟩

/-- C9: Borsh-encoding a well-formed `MultisigAccount` or `Transaction`
record and decoding the bytes reproduces the record exactly (consuming the
whole encoding). -/
theorem record_roundtrip :
    (∀ m : MultisigAccount, MultisigWF m →
      deserialize_multisig (serialize_multisig m) = some (m, [])) ∧
    (∀ t : Transaction, TransactionWF t →
      deserialize_transaction (serialize_transaction t) = some (t, [])) :=
  ⟨deserialize_serialize_multisig, deserialize_serialize_transaction⟩

theorem record_roundtrip_witness :
    deserialize_multisig (serialize_multisig (⟨true, 1, [3], 0⟩ : MultisigAccount)) =
      some ((⟨true, 1, [3], 0⟩ : MultisigAccount), []) ∧
    deserialize_transaction
        (serialize_transaction (⟨9, .Active, [255], [true], 3, 8⟩ : Transaction)) =
      some ((⟨9, .Active, [255], [true], 3, 8⟩ : Transaction), []) :=
  ⟨record_roundtrip.1 _ ⟨by norm_num, by norm_num, by decide, by norm_num⟩,
   record_roundtrip.2 _
     ⟨by decide, by norm_num, by decide, by norm_num, by decide, by norm_num⟩⟩
